import Mathlib

/-!
# Verification of the llm-rpg simulation core

Shallow embedding, in Lean 4, of the simulation core of the llm-rpg server
(two near-duplicate Express server variants over a shared relational store).
The embedding translates the leveling engine, the move / talk / examine
action handlers, the life-story recorder and the world-clock energy
regeneration step, and proves or refutes the documented behavioural
properties about them.

Conventions of the embedding:
* JavaScript numbers holding tile coordinates and energy are embedded as
  `Int`; tick counters and XP as `Nat` (they are only ever incremented from
  zero in the source).
* SQL rows become Lean structures; a nullable column read through
  `COALESCE(col, d)` or the JavaScript `col || d` idiom is embedded as an
  `Option` with the corresponding defaulting function.
* The unbounded `while` loop of `calculateLevel` is embedded with an
  explicit fuel parameter; fuel sufficiency (the loop always terminates
  within `totalXp / 100 + 1` iterations) is proved below.
* Texts are compared structurally; the life story is kept as `List Char`
  so that length/truncation reasoning mirrors `String.prototype.slice`.
-/

namespace LlmRpg

/-! ## Leveling engine (both server variants, identical source)

`xpForLevel(level) = Math.floor(100 * Math.pow(1.5, level - 1))` is embedded
exactly as the rational it denotes: `100 * 3 ^ (level - 1) / 2 ^ (level - 1)`
with `Nat` floor division. -/

def xpForLevel (level : Nat) : Nat :=
  100 * 3 ^ (level - 1) / 2 ^ (level - 1)

/-- Return record of `calculateLevel`. -/
structure LevelInfo where
  level : Nat
  currentLevelXp : Nat
  xpToNextLevel : Nat
  totalXp : Nat
deriving Repr, DecidableEq

/-- The `while (xpAccumulated + xpNeeded <= totalXp)` loop of
`calculateLevel`, with an explicit fuel bound on the number of
iterations.  With fuel `0` the loop is forcibly exited returning the
same record the exit branch returns. -/
def calcLevelLoop : Nat → Nat → Nat → Nat → LevelInfo
  | 0, totalXp, level, xpAccumulated =>
    ⟨level, totalXp - xpAccumulated, xpForLevel level, totalXp⟩
  | fuel + 1, totalXp, level, xpAccumulated =>
    let xpNeeded := xpForLevel level
    if xpAccumulated + xpNeeded ≤ totalXp then
      calcLevelLoop fuel totalXp (level + 1) (xpAccumulated + xpNeeded)
    else
      ⟨level, totalXp - xpAccumulated, xpNeeded, totalXp⟩

/-- `calculateLevel(totalXp)` from the source: the loop starts at
`level = 1`, `xpAccumulated = 0`; `totalXp / 100 + 1` iterations always
suffice (proved in `calcLevelLoop_fuel_add`). -/
def calculateLevel (totalXp : Nat) : LevelInfo :=
  calcLevelLoop (totalXp / 100 + 1) totalXp 1 0

theorem xpForLevel_ge_100 (level : Nat) : 100 ≤ xpForLevel level := by
  unfold xpForLevel
  rw [Nat.le_div_iff_mul_le (Nat.pos_pow_of_pos _ (by norm_num))]
  calc 100 * 2 ^ (level - 1) ≤ 100 * 3 ^ (level - 1) := by
        exact Nat.mul_le_mul_left _ (Nat.pow_le_pow_left (by norm_num) _)
    _ = 100 * 3 ^ (level - 1) := rfl

theorem calcLevelLoop_fuel_add (fuel : Nat) :
    ∀ (extra totalXp level acc : Nat), totalXp ≤ acc + 100 * fuel →
    calcLevelLoop (fuel + extra) totalXp level acc =
      calcLevelLoop fuel totalXp level acc := by
  induction fuel with
  | zero =>
    intro extra totalXp level acc h
    match extra with
    | 0 => rfl
    | e + 1 =>
      rw [Nat.zero_add]
      have hn := xpForLevel_ge_100 level
      simp only [calcLevelLoop]
      rw [if_neg (by omega)]
  | succ f ih =>
    intro extra totalXp level acc h
    have hn := xpForLevel_ge_100 level
    rw [Nat.add_right_comm f 1 extra]
    simp only [calcLevelLoop]
    by_cases hc : acc + xpForLevel level ≤ totalXp
    · rw [if_pos hc, if_pos hc]
      exact ih extra totalXp (level + 1) (acc + xpForLevel level) (by omega)
    · rw [if_neg hc, if_neg hc]

theorem calcLevelLoop_level_le (fuel : Nat) :
    ∀ (totalXp level acc : Nat),
    level ≤ (calcLevelLoop fuel totalXp level acc).level := by
  induction fuel with
  | zero => intro totalXp level acc; exact Nat.le_refl _
  | succ f ih =>
    intro totalXp level acc
    simp only [calcLevelLoop]
    by_cases hc : acc + xpForLevel level ≤ totalXp
    · rw [if_pos hc]
      exact Nat.le_trans (Nat.le_succ _) (ih totalXp (level + 1) _)
    · rw [if_neg hc]

theorem calcLevelLoop_mono (fuel : Nat) :
    ∀ (x y level acc : Nat), x ≤ y →
    (calcLevelLoop fuel x level acc).level ≤
      (calcLevelLoop fuel y level acc).level := by
  induction fuel with
  | zero => intro x y level acc _; exact Nat.le_refl _
  | succ f ih =>
    intro x y level acc hxy
    simp only [calcLevelLoop]
    by_cases hcx : acc + xpForLevel level ≤ x
    · rw [if_pos hcx, if_pos (Nat.le_trans hcx hxy)]
      exact ih x y (level + 1) _ hxy
    · rw [if_neg hcx]
      by_cases hcy : acc + xpForLevel level ≤ y
      · rw [if_pos hcy]
        exact Nat.le_trans (Nat.le_succ _) (calcLevelLoop_level_le f y (level + 1) _)
      · rw [if_neg hcy]

theorem totalXp_le_fuel_bound (totalXp : Nat) :
    totalXp ≤ 0 + 100 * (totalXp / 100 + 1) := by
  have h := Nat.div_add_mod totalXp 100
  have h2 : totalXp % 100 < 100 := Nat.mod_lt _ (by norm_num)
  omega

/-- **C2**  With `xpForLevel(n) = floor(100 * 1.5^(n-1))`, the level computed
by `calculateLevel` is monotonically non-decreasing in total XP (hence over
any sequence of non-negative awards), and
`calculateLevel (xpForLevel 1 + xpForLevel 2)` returns level `3` with
`currentLevelXp = 0`. -/
theorem calculateLevel_mono_and_level3 :
    (∀ x y : Nat, x ≤ y →
      (calculateLevel x).level ≤ (calculateLevel y).level) ∧
    (calculateLevel (xpForLevel 1 + xpForLevel 2)).level = 3 ∧
    (calculateLevel (xpForLevel 1 + xpForLevel 2)).currentLevelXp = 0 := by
  refine ⟨?_, by decide, by decide⟩
  intro x y hxy
  have hfuel : x / 100 + 1 ≤ y / 100 + 1 :=
    Nat.succ_le_succ (Nat.div_le_div_right hxy)
  have hx : calculateLevel x = calcLevelLoop (y / 100 + 1) x 1 0 := by
    unfold calculateLevel
    have : y / 100 + 1 = (x / 100 + 1) + (y / 100 - x / 100) := by omega
    rw [this, calcLevelLoop_fuel_add _ _ _ _ _ (totalXp_le_fuel_bound x)]
  rw [hx]
  exact calcLevelLoop_mono _ x y 1 0 hxy

/-- Closed witness for `calculateLevel_mono_and_level3`. -/
theorem calculateLevel_mono_and_level3_witness :
    (calculateLevel 120).level ≤ (calculateLevel 260).level :=
  calculateLevel_mono_and_level3.1 120 260 (by norm_num)

/-- **C10**  `calculateLevel` terminates on every total XP: each loop
iteration adds `xpForLevel level ≥ 100` to the accumulator, so
`totalXp / 100 + 1` iterations always suffice — granting the loop any
additional fuel beyond that bound never changes the result. -/
theorem calculateLevel_terminates :
    (∀ level : Nat, 100 ≤ xpForLevel level) ∧
    (∀ totalXp extra : Nat,
      calcLevelLoop (totalXp / 100 + 1 + extra) totalXp 1 0 =
        calculateLevel totalXp) := by
  refine ⟨xpForLevel_ge_100, ?_⟩
  intro totalXp extra
  unfold calculateLevel
  exact calcLevelLoop_fuel_add _ extra totalXp 1 0 (totalXp_le_fuel_bound totalXp)

/-- Closed witness for `calculateLevel_terminates`. -/
theorem calculateLevel_terminates_witness :
    100 ≤ xpForLevel 5 ∧ calcLevelLoop (250 / 100 + 1 + 7) 250 1 0 = calculateLevel 250 :=
  ⟨calculateLevel_terminates.1 5, calculateLevel_terminates.2 250 7⟩

/-! ## The move action (identical in both server variants)

`case 'move'` computes the target tile from a unit direction vector,
rejects on the zone boundary (`newX < 0 || newX >= width || newY < 0 ||
newY >= height`) or if a `blocking = true` object sits on the target tile,
and otherwise stores the target tile as the new position. -/

inductive Direction
  | north
  | south
  | east
  | west
deriving DecidableEq, Repr

/-- The `dirs` table: `north: [0,-1], south: [0,1], east: [1,0], west: [-1,0]`. -/
def Direction.delta : Direction → Int × Int
  | .north => (0, -1)
  | .south => (0, 1)
  | .east => (1, 0)
  | .west => (-1, 0)

/-- A row of the `objects` table. -/
structure WorldObject where
  id : String
  name : String
  x : Int
  y : Int
  description : String
  canInteract : Bool
  interactResult : String
  blocking : Bool
deriving Repr, DecidableEq

inductive MoveError
  | outOfBounds
  | blocked (name : String)
deriving Repr, DecidableEq

/-- The `case 'move'` handler: on error the early `return` skips the
position `UPDATE`, so an `Except.error` result models an unchanged
position.  The blocking-object query `WHERE x = $1 AND y = $2 AND
blocking = true` is embedded as `List.find?`. -/
def moveAction (width height : Int) (objects : List WorldObject)
    (x y : Int) (dir : Direction) : Except MoveError (Int × Int) :=
  if x + dir.delta.1 < 0 ∨ width ≤ x + dir.delta.1 ∨
      y + dir.delta.2 < 0 ∨ height ≤ y + dir.delta.2 then
    Except.error MoveError.outOfBounds
  else
    match objects.find? (fun o =>
        o.x == x + dir.delta.1 && o.y == y + dir.delta.2 && o.blocking) with
    | some o => Except.error (MoveError.blocked o.name)
    | none => Except.ok (x + dir.delta.1, y + dir.delta.2)

/-- **C1**  A move is rejected (position unchanged) precisely when the
target tile lies outside `[0,width) x [0,height)` or holds a blocking
object; in every other case the new position is the old one shifted by the
direction's unit vector — exactly one tile in the given direction. -/
theorem moveAction_spec (width height x y : Int) (objects : List WorldObject)
    (dir : Direction) :
    ((∃ e, moveAction width height objects x y dir = Except.error e) ↔
      (x + dir.delta.1 < 0 ∨ width ≤ x + dir.delta.1 ∨
        y + dir.delta.2 < 0 ∨ height ≤ y + dir.delta.2 ∨
        ∃ o ∈ objects, o.x = x + dir.delta.1 ∧ o.y = y + dir.delta.2 ∧
          o.blocking = true)) ∧
    (moveAction width height objects x y dir =
        Except.ok (x + dir.delta.1, y + dir.delta.2) ∨
      ∃ e, moveAction width height objects x y dir = Except.error e) ∧
    dir.delta.1.natAbs + dir.delta.2.natAbs = 1 := by
  refine ⟨⟨?_, ?_⟩, ?_, by cases dir <;> decide⟩
  · rintro ⟨e, he⟩
    unfold moveAction at he
    by_cases hb : x + dir.delta.1 < 0 ∨ width ≤ x + dir.delta.1 ∨
        y + dir.delta.2 < 0 ∨ height ≤ y + dir.delta.2
    · tauto
    · rw [if_neg hb] at he
      cases hfind : objects.find? (fun o =>
          o.x == x + dir.delta.1 && o.y == y + dir.delta.2 && o.blocking) with
      | none => rw [hfind] at he; exact absurd he (by simp)
      | some o =>
        have hp := List.find?_some hfind
        have hm := List.mem_of_find?_eq_some hfind
        simp only [Bool.and_eq_true, beq_iff_eq] at hp
        exact Or.inr (Or.inr (Or.inr (Or.inr ⟨o, hm, hp.1.1, hp.1.2, hp.2⟩)))
  · intro h
    unfold moveAction
    by_cases hb : x + dir.delta.1 < 0 ∨ width ≤ x + dir.delta.1 ∨
        y + dir.delta.2 < 0 ∨ height ≤ y + dir.delta.2
    · rw [if_pos hb]; exact ⟨MoveError.outOfBounds, rfl⟩
    · rw [if_neg hb]
      have hobj : ∃ o ∈ objects, o.x = x + dir.delta.1 ∧
          o.y = y + dir.delta.2 ∧ o.blocking = true := by tauto
      obtain ⟨o, ho, hx, hy, hbl⟩ := hobj
      cases hfind : objects.find? (fun o =>
          o.x == x + dir.delta.1 && o.y == y + dir.delta.2 && o.blocking) with
      | some o' => exact ⟨MoveError.blocked o'.name, rfl⟩
      | none =>
        exfalso
        rw [List.find?_eq_none] at hfind
        exact absurd (by simp [hx, hy, hbl] :
          (o.x == x + dir.delta.1 && o.y == y + dir.delta.2 && o.blocking) = true)
          (by simpa using hfind o ho)
  · unfold moveAction
    by_cases hb : x + dir.delta.1 < 0 ∨ width ≤ x + dir.delta.1 ∨
        y + dir.delta.2 < 0 ∨ height ≤ y + dir.delta.2
    · rw [if_pos hb]; exact Or.inr ⟨MoveError.outOfBounds, rfl⟩
    · rw [if_neg hb]
      cases objects.find? (fun o =>
          o.x == x + dir.delta.1 && o.y == y + dir.delta.2 && o.blocking) with
      | some o => exact Or.inr ⟨MoveError.blocked o.name, rfl⟩
      | none => exact Or.inl rfl

/-- Closed witness for `moveAction_spec`: in an empty 20 x 15 zone a
character at `(3, 3)` moving north ends at `(3, 2)`. -/
theorem moveAction_spec_witness :
    moveAction 20 15 [] 3 3 Direction.north = Except.ok (3, 2) := by
  have h := moveAction_spec 20 15 3 3 [] Direction.north
  rcases h.2.1 with hok | ⟨e, he⟩
  · simpa [Direction.delta] using hok
  · exfalso
    have := h.1.mp ⟨e, he⟩
    simp only [Direction.delta] at this
    rcases this with h1 | h1 | h1 | h1 | ⟨o, ho, _⟩
    · omega
    · omega
    · omega
    · omega
    · simp at ho

/-! ## Life-story recorder (`addSignificantMoment`, identical in both variants)

A moment object `{tick, category, moment}` is pushed onto the character's
`significant_moments` array; `if (moments.length > 50) moments =
moments.slice(-50)` caps the array.  When the capped array's length is a
multiple of ten the last ten moment texts are joined and appended to
`life_story`, which is cut back to its last 4000 units whenever it exceeds
5000.  The wall-clock `timestamp` field of the pushed object plays no role
in any behaviour and is not embedded.  The life story is kept as
`List Char` mirroring `String.prototype.slice` on units. -/

structure Moment where
  tick : Nat
  category : String
  moment : String
deriving Repr, DecidableEq

/-- `moments.push(m); if (moments.length > 50) moments = moments.slice(-50)`. -/
def momentsAfterPush (moments : List Moment) (m : Moment) : List Moment :=
  let ms := moments ++ [m]
  if 50 < ms.length then ms.drop (ms.length - 50) else ms

/-- `` `\n\n[After ${tick} ticks] ` `` followed by
`moments.slice(-10).map(m => m.moment).join('. ')`. -/
def lifeStoryChunk (tick : Nat) (moments : List Moment) : List Char :=
  (s!"\n\n[After {tick} ticks] " ++
    String.intercalate ". "
      ((moments.drop (moments.length - 10)).map Moment.moment)).data

/-- The life-story update: append a summary chunk when the (new) moments
length is a multiple of ten, then `lifeStory = lifeStory.slice(-4000)`
whenever the length exceeds 5000. -/
def lifeStoryAfter (lifeStory : List Char) (newMoments : List Moment)
    (tick : Nat) : List Char :=
  if newMoments.length % 10 = 0 then
    let ls := lifeStory ++ lifeStoryChunk tick newMoments
    if 5000 < ls.length then ls.drop (ls.length - 4000) else ls
  else lifeStory

/-- `addSignificantMoment(charId, moment, category)` restricted to the two
character columns it updates. -/
def addSignificantMoment (tick : Nat) (momentText category : String)
    (moments : List Moment) (lifeStory : List Char) :
    List Moment × List Char :=
  let newMoments := momentsAfterPush moments ⟨tick, category, momentText⟩
  (newMoments, lifeStoryAfter lifeStory newMoments tick)

/-- A sequence of `addSignificantMoment` calls
`(tick, momentText, category)` applied to one character's
`(significant_moments, life_story)` state. -/
def applyMoments (init : List Moment × List Char) :
    List (Nat × String × String) → List Moment × List Char
  | [] => init
  | c :: rest => applyMoments (addSignificantMoment c.1 c.2.1 c.2.2 init.1 init.2) rest

theorem momentsAfterPush_length (moments : List Moment) (m : Moment) :
    (momentsAfterPush moments m).length = min (moments.length + 1) 50 := by
  unfold momentsAfterPush
  by_cases h : 50 < (moments ++ [m]).length
  · rw [if_pos h, List.length_drop]
    simp only [List.length_append, List.length_singleton] at h ⊢
    omega
  · rw [if_neg h]
    simp only [List.length_append, List.length_singleton] at h ⊢
    omega

theorem lifeStoryAfter_length (lifeStory : List Char) (newMoments : List Moment)
    (tick : Nat) (h : lifeStory.length ≤ 5000) :
    (lifeStoryAfter lifeStory newMoments tick).length ≤ 5000 := by
  unfold lifeStoryAfter
  by_cases h10 : newMoments.length % 10 = 0
  · rw [if_pos h10]
    by_cases hlen : 5000 < (lifeStory ++ lifeStoryChunk tick newMoments).length
    · rw [if_pos hlen, List.length_drop]; omega
    · rw [if_neg hlen]; omega
  · rw [if_neg h10]; exact h

/-- **C7**  Each `addSignificantMoment` call leaves the significant-moments
sequence with at most 50 entries — the result is a suffix of the old
sequence with the new moment appended (oldest dropped first, insertion
order preserved) of length `min (old + 1) 50` — and keeps the life-story
text at most 5000 units long; both bounds hold after every call of any
call sequence. -/
theorem addSignificantMoment_bounded :
    (∀ (tick : Nat) (text cat : String) (moments : List Moment) (story : List Char),
      (addSignificantMoment tick text cat moments story).1.length =
        min (moments.length + 1) 50 ∧
      (addSignificantMoment tick text cat moments story).1 <:+
        moments ++ [⟨tick, cat, text⟩] ∧
      (story.length ≤ 5000 →
        (addSignificantMoment tick text cat moments story).2.length ≤ 5000)) ∧
    (∀ (init : List Moment × List Char) (c : Nat × String × String)
        (calls : List (Nat × String × String)), init.2.length ≤ 5000 →
      (applyMoments init (c :: calls)).1.length ≤ 50 ∧
      (applyMoments init (c :: calls)).2.length ≤ 5000) := by
  have hstep : ∀ (tick : Nat) (text cat : String) (moments : List Moment)
      (story : List Char),
      (addSignificantMoment tick text cat moments story).1.length =
        min (moments.length + 1) 50 ∧
      (addSignificantMoment tick text cat moments story).1 <:+
        moments ++ [⟨tick, cat, text⟩] ∧
      (story.length ≤ 5000 →
        (addSignificantMoment tick text cat moments story).2.length ≤ 5000) := by
    intro tick text cat moments story
    refine ⟨momentsAfterPush_length moments _, ?_, fun h =>
      lifeStoryAfter_length story _ tick h⟩
    unfold addSignificantMoment momentsAfterPush
    by_cases h : 50 < (moments ++ [(⟨tick, cat, text⟩ : Moment)]).length
    · rw [if_pos h]; exact List.drop_suffix _ _
    · rw [if_neg h]
  refine ⟨hstep, ?_⟩
  intro init c calls
  induction calls generalizing init c with
  | nil =>
    intro h
    show (addSignificantMoment c.1 c.2.1 c.2.2 init.1 init.2).1.length ≤ 50 ∧ _
    have h1 := (hstep c.1 c.2.1 c.2.2 init.1 init.2).1
    have h3 := (hstep c.1 c.2.1 c.2.2 init.1 init.2).2.2 h
    exact ⟨by omega, h3⟩
  | cons c' rest ih =>
    intro h
    show (applyMoments (addSignificantMoment c.1 c.2.1 c.2.2 init.1 init.2)
      (c' :: rest)).1.length ≤ 50 ∧ _
    exact ih _ c' ((hstep c.1 c.2.1 c.2.2 init.1 init.2).2.2 h)

/-- Closed witness for `addSignificantMoment_bounded`. -/
theorem addSignificantMoment_bounded_witness :
    (applyMoments ([], []) [(1, "explored", "general")]).1.length ≤ 50 ∧
    (applyMoments ([], []) [(1, "explored", "general")]).2.length ≤ 5000 :=
  addSignificantMoment_bounded.2 ([], []) (1, "explored", "general") [] (by decide)

/-! ## The talk action (richer server variant: energy + conversation fatigue)

`case 'talk'` of the variant with energy and fatigue: reject on a missing
message, on `currentEnergy < 3` (where `currentEnergy = me.energy || 100`,
the JavaScript falsy-default), when no other active character is inside
the `ABS(x - $2) <= 2 AND ABS(y - $3) <= 2` box (the nearest by Euclidean
distance — equivalently squared distance — is chosen among those), or when
the ordered-pair relationship's `cooldown_until_tick` is still in the
future.  On success: deduct energy, upsert the `(speaker, listener)`
relationship (incremented exchange count, cooldown set at the 15-exchange
ceiling), record first-meeting moments for both sides, and award XP on the
diminishing schedule. -/

/-- A row of the `characters` table (the columns the simulation core touches). -/
structure Character where
  id : Nat
  name : String
  x : Int
  y : Int
  hp : Int
  maxHp : Int
  xp : Nat
  level : Nat
  energy : Option Int
  maxEnergy : Option Int
  isActive : Bool
  lastActionTick : Int
  moments : List Moment
  lifeStory : List Char
deriving Repr, DecidableEq

/-- A row of the `relationships` table, keyed by the ordered pair
`(char1, char2)`. -/
structure Relationship where
  char1 : Nat
  char2 : Nat
  sentiment : Int
  interactions : Int
  firstMetTick : Nat
  lastInteractionTick : Nat
  recentExchanges : Nat
  cooldownUntilTick : Nat
deriving Repr, DecidableEq

/-- The shared store the action handlers read and write. -/
structure GameState where
  tick : Nat
  width : Int
  height : Int
  characters : List Character
  objects : List WorldObject
  relationships : List Relationship
  activityLog : List String
deriving Repr, DecidableEq

/-- JavaScript `v || 100` on a nullable numeric column: `null` and `0` both
fall back to `100`. -/
def jsOr100 : Option Int → Int
  | none => 100
  | some v => if v = 0 then 100 else v

/-- Squared Euclidean distance; `ORDER BY SQRT(POWER(x-$2,2)+POWER(y-$3,2))`
orders identically to the square because the square root is monotone. -/
def sqDist (x1 y1 x2 y2 : Int) : Int := (x2 - x1) ^ 2 + (y2 - y1) ^ 2

/-- The talk `WHERE` clause: another active character inside the
`ABS(dx) <= 2 AND ABS(dy) <= 2` box. -/
def inTalkRange (me c : Character) : Bool :=
  c.id != me.id && c.isActive &&
    decide ((c.x - me.x).natAbs ≤ 2) && decide ((c.y - me.y).natAbs ≤ 2)

def talkCandidates (st : GameState) (me : Character) : List Character :=
  st.characters.filter (inTalkRange me)

/-- `ORDER BY` squared Euclidean distance `LIMIT 1`: a minimizer of the
squared distance among the candidates. -/
def pickNearest (me : Character) : List Character → Option Character
  | [] => none
  | c :: cs =>
    match pickNearest me cs with
    | none => some c
    | some b =>
      if sqDist me.x me.y c.x c.y ≤ sqDist me.x me.y b.x b.y then some c
      else some b

def talkListener (st : GameState) (me : Character) : Option Character :=
  pickNearest me (talkCandidates st me)

/-- `SELECT ... FROM relationships WHERE char1_id = $1 AND char2_id = $2`. -/
def findRel (rels : List Relationship) (a b : Nat) : Option Relationship :=
  rels.find? (fun r => r.char1 == a && r.char2 == b)

/-- `relCheck.rows[0]?.cooldown_until_tick || 0`. -/
def cooldownOf : Option Relationship → Nat
  | some r => r.cooldownUntilTick
  | none => 0

/-- `relCheck.rows[0]?.recent_exchanges || 0`. -/
def exchangesOf : Option Relationship → Nat
  | some r => r.recentExchanges
  | none => 0

inductive TalkError
  | messageRequired
  | tooTired (energy : Int)
  | noOneNearby
  | conversationCooldown (ticksLeft : Nat)
deriving Repr, DecidableEq

/-- The data the success response is built from. -/
structure TalkOutcome where
  listenerId : Nat
  listenerName : String
  isFirstMeeting : Bool
  newExchangeCount : Nat
  newCooldown : Nat
  xpReward : Nat
deriving Repr, DecidableEq

/-- `MOMENT_TRIGGERS.first_meeting`. -/
def firstMeetingText (name : String) : String :=
  "Met " ++ name ++ " for the first time"

/-- `UPDATE characters SET ... WHERE id = cid`, as a list map. -/
def updateCharacter (cid : Nat) (g : Character → Character)
    (chars : List Character) : List Character :=
  chars.map (fun c => if c.id == cid then g c else c)

/-- `addSignificantMoment` applied to one character row. -/
def applyMomentChar (tick : Nat) (text category : String)
    (c : Character) : Character :=
  { c with
    moments := (addSignificantMoment tick text category c.moments c.lifeStory).1,
    lifeStory := (addSignificantMoment tick text category c.moments c.lifeStory).2 }

/-- `awardXp(charId, amount)`: add the amount, recompute level and max HP,
heal fully when the level increased. -/
def awardXpChar (amount : Nat) (c : Character) : Character :=
  if c.level < (calculateLevel (c.xp + amount)).level then
    { c with
      xp := c.xp + amount,
      level := (calculateLevel (c.xp + amount)).level,
      maxHp := 100 + (((calculateLevel (c.xp + amount)).level : Int) - 1) * 10,
      hp := 100 + (((calculateLevel (c.xp + amount)).level : Int) - 1) * 10 }
  else
    { c with
      xp := c.xp + amount,
      level := (calculateLevel (c.xp + amount)).level,
      maxHp := 100 + (((calculateLevel (c.xp + amount)).level : Int) - 1) * 10 }

/-- `newExchangeCount >= 15 ? tick + 30 : 0`. -/
def talkNewCooldown (tick newExchangeCount : Nat) : Nat :=
  if 15 ≤ newExchangeCount then tick + 30 else 0

/-- The diminishing XP schedule of the richer variant, keyed on the
post-increment exchange count, with the first-meeting override. -/
def talkXpReward (isFirstMeeting : Bool) (newExchangeCount : Nat) : Nat :=
  if isFirstMeeting then 20
  else if newExchangeCount ≤ 5 then 5
  else if newExchangeCount ≤ 10 then 2
  else 0

/-- Character-table effects of a successful talk, in source order: energy
deduction for the speaker, first-meeting moments for both sides, XP award
for the speaker (only when the reward is positive). -/
def talkCharsAfter (st : GameState) (me listener : Character)
    (isFirstMeeting : Bool) (xpReward : Nat) : List Character :=
  let chars1 := updateCharacter me.id
    (fun c => { c with energy := some (c.energy.getD 100 - 3) }) st.characters
  let chars2 :=
    if isFirstMeeting then
      updateCharacter listener.id
        (applyMomentChar st.tick (firstMeetingText me.name) "social")
        (updateCharacter me.id
          (applyMomentChar st.tick (firstMeetingText listener.name) "social")
          chars1)
    else chars1
  if 0 < xpReward then updateCharacter me.id (awardXpChar xpReward) chars2
  else chars2

/-- The relationship upsert: `INSERT ... VALUES ($1,$2,5,1,$3,$3,1,0)
ON CONFLICT DO UPDATE SET interactions = interactions+1, sentiment =
LEAST(100, sentiment+1), last_interaction_tick = $3, recent_exchanges = $4,
cooldown_until_tick = $5`. -/
def talkRelsAfter (st : GameState) (me listener : Character)
    (isFirstMeeting : Bool) (newExchangeCount newCooldown : Nat) :
    List Relationship :=
  if isFirstMeeting then
    st.relationships ++ [⟨me.id, listener.id, 5, 1, st.tick, st.tick, 1, 0⟩]
  else
    st.relationships.map (fun r =>
      if r.char1 == me.id && r.char2 == listener.id then
        { r with
          interactions := r.interactions + 1,
          sentiment := min 100 (r.sentiment + 1),
          lastInteractionTick := st.tick,
          recentExchanges := newExchangeCount,
          cooldownUntilTick := newCooldown }
      else r)

/-- The success branch of `case 'talk'`. -/
def talkSuccess (st : GameState) (me listener : Character) (message : String)
    (recentExchanges : Nat) : GameState × TalkOutcome :=
  let isFirstMeeting := (findRel st.relationships me.id listener.id).isNone
  let newExchangeCount := recentExchanges + 1
  let newCooldown := talkNewCooldown st.tick newExchangeCount
  let xpReward := talkXpReward isFirstMeeting newExchangeCount
  ({ st with
      characters := talkCharsAfter st me listener isFirstMeeting xpReward,
      relationships :=
        talkRelsAfter st me listener isFirstMeeting newExchangeCount newCooldown,
      activityLog := st.activityLog ++
        [me.name ++ " says to " ++ listener.name ++ ": " ++ message] },
   ⟨listener.id, listener.name, isFirstMeeting, newExchangeCount, newCooldown,
    xpReward⟩)

/-- `case 'talk'` of the richer variant, with its four rejection gates in
source order. -/
def talkAction (st : GameState) (me : Character) (message : String) :
    Except TalkError (GameState × TalkOutcome) :=
  if message = "" then Except.error TalkError.messageRequired
  else if jsOr100 me.energy < 3 then
    Except.error (TalkError.tooTired (jsOr100 me.energy))
  else
    match talkListener st me with
    | none => Except.error TalkError.noOneNearby
    | some listener =>
      if st.tick < cooldownOf (findRel st.relationships me.id listener.id) then
        Except.error (TalkError.conversationCooldown
          (cooldownOf (findRel st.relationships me.id listener.id) - st.tick))
      else
        Except.ok (talkSuccess st me listener message
          (exchangesOf (findRel st.relationships me.id listener.id)))

/-- One action submission to `/api/action/:charId` with `action = 'talk'`,
tagged with the world tick at which it is processed. -/
structure TalkSubmission where
  tick : Nat
  speakerId : Nat
  message : String
deriving Repr, DecidableEq

/-- Process one talk submission: look the speaker up, run the handler;
failures leave the store untouched (the handler returns before any
write). -/
def talkStep (st : GameState) (sub : TalkSubmission) :
    GameState × Option TalkOutcome :=
  match ({ st with tick := sub.tick } : GameState).characters.find?
      (fun c => c.id == sub.speakerId) with
  | none => ({ st with tick := sub.tick }, none)
  | some me =>
    match talkAction { st with tick := sub.tick } me sub.message with
    | Except.error _ => ({ st with tick := sub.tick }, none)
    | Except.ok p => (p.1, some p.2)

/-- A history of talk submissions, with the trace of successful outcomes
`(speakerId, outcome)`. -/
def runTalks (st : GameState) :
    List TalkSubmission → GameState × List (Nat × TalkOutcome)
  | [] => (st, [])
  | sub :: rest =>
    match talkStep st sub with
    | (st1, none) => runTalks st1 rest
    | (st1, some o) =>
      ((runTalks st1 rest).1, (sub.speakerId, o) :: (runTalks st1 rest).2)

/-- Trace predicate: a successful talk from `a` whose chosen listener is `b`. -/
def isTalkAB (a b : Nat) (e : Nat × TalkOutcome) : Bool :=
  e.1 == a && e.2.listenerId == b

/-- Trace predicate: such a talk that was a first meeting. -/
def isFirstMeetingAB (a b : Nat) (e : Nat × TalkOutcome) : Bool :=
  isTalkAB a b e && e.2.isFirstMeeting

theorem pickNearest_ne_none (me a : Character) (as : List Character) :
    pickNearest me (a :: as) ≠ none := by
  simp only [pickNearest]
  split
  · simp
  · split <;> simp

theorem pickNearest_mem (me : Character) (l : List Character) (c : Character)
    (h : pickNearest me l = some c) : c ∈ l := by
  induction l generalizing c with
  | nil => simp [pickNearest] at h
  | cons a as ih =>
    simp only [pickNearest] at h
    split at h
    · injection h with h
      exact h ▸ List.mem_cons_self a as
    · rename_i b hp
      split at h <;> injection h with h
      · exact h ▸ List.mem_cons_self a as
      · exact List.mem_cons_of_mem a (ih c (h ▸ hp))

theorem pickNearest_min (me : Character) (l : List Character) (c : Character)
    (h : pickNearest me l = some c) :
    ∀ b ∈ l, sqDist me.x me.y c.x c.y ≤ sqDist me.x me.y b.x b.y := by
  induction l generalizing c with
  | nil => simp [pickNearest] at h
  | cons a as ih =>
    intro b hb
    simp only [pickNearest] at h
    split at h
    · rename_i hp
      injection h with h
      subst h
      have hnil : as = [] := by
        cases as with
        | nil => rfl
        | cons x xs => exact absurd hp (pickNearest_ne_none me x xs)
      subst hnil
      rcases List.mem_singleton.mp hb with rfl
      exact le_refl _
    · rename_i best hp
      split at h <;> rename_i hd <;> injection h with h <;> subst h
      · rcases List.mem_cons.mp hb with rfl | hmem
        · exact le_refl _
        · exact le_trans hd (ih best hp b hmem)
      · rcases List.mem_cons.mp hb with rfl | hmem
        · exact le_of_not_le hd
        · exact ih best hp b hmem

theorem findAppendSome {α : Type} (p : α → Bool) (l₁ l₂ : List α) (a : α)
    (h : l₁.find? p = some a) : (l₁ ++ l₂).find? p = some a := by
  induction l₁ with
  | nil => simp [List.find?] at h
  | cons x xs ih =>
    rw [List.cons_append]
    by_cases hx : p x
    · rw [List.find?_cons_of_pos _ hx] at h
      rw [List.find?_cons_of_pos _ hx]
      exact h
    · rw [List.find?_cons_of_neg _ hx] at h
      rw [List.find?_cons_of_neg _ hx]
      exact ih h

theorem findAppendNone {α : Type} (p : α → Bool) (l₁ l₂ : List α)
    (h : l₁.find? p = none) : (l₁ ++ l₂).find? p = l₂.find? p := by
  induction l₁ with
  | nil => rfl
  | cons x xs ih =>
    rw [List.cons_append]
    by_cases hx : p x
    · rw [List.find?_cons_of_pos _ hx] at h
      exact absurd h (by simp)
    · rw [List.find?_cons_of_neg _ hx] at h
      rw [List.find?_cons_of_neg _ hx]
      exact ih h

theorem findRel_insert (rels : List Relationship) (row : Relationship)
    (h : findRel rels row.char1 row.char2 = none) :
    findRel (rels ++ [row]) row.char1 row.char2 = some row := by
  unfold findRel at h ⊢
  rw [findAppendNone _ _ _ h]
  simp

theorem findRel_append_other (rels : List Relationship) (row : Relationship)
    (a b : Nat) (hne : ¬ (row.char1 = a ∧ row.char2 = b)) :
    findRel (rels ++ [row]) a b = findRel rels a b := by
  cases h : findRel rels a b with
  | some r => exact findAppendSome _ _ _ _ h
  | none =>
    unfold findRel at h ⊢
    rw [findAppendNone _ _ _ h]
    have hp : (row.char1 == a && row.char2 == b) = false := by
      rcases Decidable.em (row.char1 = a) with h1 | h1
      · rcases Decidable.em (row.char2 = b) with h2 | h2
        · exact absurd ⟨h1, h2⟩ hne
        · simp [h2]
      · simp [h1]
    simp [hp]

theorem findRel_update (rels : List Relationship) (a b : Nat)
    (g : Relationship → Relationship)
    (hg : ∀ r, (g r).char1 = r.char1 ∧ (g r).char2 = r.char2) :
    findRel (rels.map (fun r =>
        if r.char1 == a && r.char2 == b then g r else r)) a b =
      Option.map g (findRel rels a b) := by
  unfold findRel
  induction rels with
  | nil => rfl
  | cons r rs ih =>
    rw [List.map_cons]
    by_cases hp : (r.char1 == a && r.char2 == b) = true
    · rw [if_pos hp]
      have hgp : ((g r).char1 == a && (g r).char2 == b) = true := by
        rw [show (g r).char1 = r.char1 from (hg r).1,
            show (g r).char2 = r.char2 from (hg r).2]
        exact hp
      rw [List.find?_cons_of_pos (p := fun (r : Relationship) => r.char1 == a && r.char2 == b) _ hgp,
          List.find?_cons_of_pos (p := fun (r : Relationship) => r.char1 == a && r.char2 == b) _ hp]
      rfl
    · rw [if_neg hp]
      rw [List.find?_cons_of_neg (p := fun (r : Relationship) => r.char1 == a && r.char2 == b) _ hp,
          List.find?_cons_of_neg (p := fun (r : Relationship) => r.char1 == a && r.char2 == b) _ hp]
      exact ih

theorem find?_updateCharacter (chars : List Character) (cid i : Nat)
    (g : Character → Character) (hg : ∀ c, (g c).id = c.id) :
    (updateCharacter cid g chars).find? (fun c => c.id == i) =
      Option.map (fun c => if c.id == cid then g c else c)
        (chars.find? (fun c => c.id == i)) := by
  unfold updateCharacter
  induction chars with
  | nil => rfl
  | cons c cs ih =>
    rw [List.map_cons]
    have hid : (if c.id == cid then g c else c).id = c.id := by
      by_cases h : (c.id == cid) = true
      · rw [if_pos h]; exact hg c
      · rw [if_neg h]
    by_cases hp : (c.id == i) = true
    · have hp2 : ((if c.id == cid then g c else c).id == i) = true := by
        rw [hid]; exact hp
      rw [List.find?_cons_of_pos (p := fun (c : Character) => c.id == i) _ hp2,
          List.find?_cons_of_pos (p := fun (c : Character) => c.id == i) _ hp]
      rfl
    · have hp2 : ¬ ((if c.id == cid then g c else c).id == i) = true := by
        rw [hid]; exact hp
      rw [List.find?_cons_of_neg (p := fun (c : Character) => c.id == i) _ hp2,
          List.find?_cons_of_neg (p := fun (c : Character) => c.id == i) _ hp]
      exact ih

theorem applyMomentChar_id (t : Nat) (x cat : String) (c : Character) :
    (applyMomentChar t x cat c).id = c.id := rfl

theorem awardXpChar_id (n : Nat) (c : Character) :
    (awardXpChar n c).id = c.id := by
  unfold awardXpChar; split <;> rfl

theorem awardXpChar_xp (n : Nat) (c : Character) :
    (awardXpChar n c).xp = c.xp + n := by
  unfold awardXpChar; split <;> rfl

theorem awardXpChar_moments (n : Nat) (c : Character) :
    (awardXpChar n c).moments = c.moments := by
  unfold awardXpChar; split <;> rfl

theorem talkAction_ok_inv {st : GameState} {me : Character} {msg : String}
    {p : GameState × TalkOutcome} (h : talkAction st me msg = Except.ok p) :
    msg ≠ "" ∧ ¬ jsOr100 me.energy < 3 ∧
    ∃ listener, talkListener st me = some listener ∧
      cooldownOf (findRel st.relationships me.id listener.id) ≤ st.tick ∧
      p = talkSuccess st me listener msg
        (exchangesOf (findRel st.relationships me.id listener.id)) := by
  unfold talkAction at h
  by_cases h1 : msg = ""
  · rw [if_pos h1] at h; exact absurd h (by simp)
  rw [if_neg h1] at h
  by_cases h2 : jsOr100 me.energy < 3
  · rw [if_pos h2] at h; exact absurd h (by simp)
  rw [if_neg h2] at h
  cases hL : talkListener st me with
  | none => rw [hL] at h; exact absurd h (by simp)
  | some listener =>
    rw [hL] at h
    dsimp only at h
    by_cases h3 : st.tick < cooldownOf (findRel st.relationships me.id listener.id)
    · rw [if_pos h3] at h; exact absurd h (by simp)
    · rw [if_neg h3] at h
      exact ⟨h1, h2, listener, rfl, Nat.le_of_not_lt h3, (Except.ok.inj h).symm⟩

theorem talkListener_ne (st : GameState) (me listener : Character)
    (hL : talkListener st me = some listener) : listener.id ≠ me.id := by
  have hmem := pickNearest_mem me _ _ hL
  have hin := List.of_mem_filter hmem
  simp only [inTalkRange, Bool.and_eq_true, bne_iff_ne] at hin
  exact hin.1.1.1

theorem talkSuccess_outcome (st : GameState) (me listener : Character)
    (msg : String) (ex : Nat) :
    (talkSuccess st me listener msg ex).2 =
      ⟨listener.id, listener.name,
       (findRel st.relationships me.id listener.id).isNone, ex + 1,
       talkNewCooldown st.tick (ex + 1),
       talkXpReward (findRel st.relationships me.id listener.id).isNone
         (ex + 1)⟩ := rfl

theorem talkSuccess_chars (st : GameState) (me listener : Character)
    (msg : String) (ex : Nat) :
    (talkSuccess st me listener msg ex).1.characters =
      talkCharsAfter st me listener
        (findRel st.relationships me.id listener.id).isNone
        (talkXpReward (findRel st.relationships me.id listener.id).isNone
          (ex + 1)) := rfl

theorem talkSuccess_rels (st : GameState) (me listener : Character)
    (msg : String) (ex : Nat) :
    (talkSuccess st me listener msg ex).1.relationships =
      talkRelsAfter st me listener
        (findRel st.relationships me.id listener.id).isNone (ex + 1)
        (talkNewCooldown st.tick (ex + 1)) := rfl

theorem find?_talkCharsAfter_me_true (st : GameState) (me listener : Character)
    (xpr : Nat) (hne : listener.id ≠ me.id)
    (hme : st.characters.find? (fun c => c.id == me.id) = some me) :
    ∃ sp, (talkCharsAfter st me listener true xpr).find?
        (fun c => c.id == me.id) = some sp ∧
      sp.xp = me.xp + xpr ∧
      sp.moments = momentsAfterPush me.moments
        ⟨st.tick, "social", firstMeetingText listener.name⟩ := by
  have hsym : (me.id == listener.id) = false :=
    beq_eq_false_iff_ne.mpr (Ne.symm hne)
  have hself : (me.id == me.id) = true := beq_self_eq_true me.id
  unfold talkCharsAfter
  dsimp only
  by_cases h0 : 0 < xpr
  · rw [if_pos rfl, if_pos h0]
    rw [find?_updateCharacter _ _ _ _ (awardXpChar_id xpr),
        find?_updateCharacter _ _ _ _
          (applyMomentChar_id st.tick (firstMeetingText me.name) "social"),
        find?_updateCharacter _ _ _ _
          (applyMomentChar_id st.tick (firstMeetingText listener.name) "social"),
        find?_updateCharacter _ _ _
            (fun c => { c with energy := some (c.energy.getD 100 - 3) })
            (fun c => rfl), hme]
    refine ⟨_, rfl, ?_, ?_⟩
    · simp [hself, hsym, applyMomentChar, awardXpChar_xp]
    · simp [hself, hsym, applyMomentChar, awardXpChar_moments,
        addSignificantMoment]
  · rw [if_pos rfl, if_neg h0]
    rw [find?_updateCharacter _ _ _ _
          (applyMomentChar_id st.tick (firstMeetingText me.name) "social"),
        find?_updateCharacter _ _ _ _
          (applyMomentChar_id st.tick (firstMeetingText listener.name) "social"),
        find?_updateCharacter _ _ _
            (fun c => { c with energy := some (c.energy.getD 100 - 3) })
            (fun c => rfl), hme]
    have hx : xpr = 0 := by omega
    refine ⟨_, rfl, ?_, ?_⟩
    · simp [hself, hsym, applyMomentChar, hx]
    · simp [hself, hsym, applyMomentChar, addSignificantMoment]

theorem find?_talkCharsAfter_me_false (st : GameState) (me listener : Character)
    (xpr : Nat)
    (hme : st.characters.find? (fun c => c.id == me.id) = some me) :
    ∃ sp, (talkCharsAfter st me listener false xpr).find?
        (fun c => c.id == me.id) = some sp ∧
      sp.xp = me.xp + xpr ∧ sp.moments = me.moments := by
  have hself : (me.id == me.id) = true := beq_self_eq_true me.id
  unfold talkCharsAfter
  dsimp only
  by_cases h0 : 0 < xpr
  · rw [if_neg (show ¬ (false = true) by simp), if_pos h0]
    rw [find?_updateCharacter _ _ _ _ (awardXpChar_id xpr),
        find?_updateCharacter _ _ _
            (fun c => { c with energy := some (c.energy.getD 100 - 3) })
            (fun c => rfl), hme]
    refine ⟨_, rfl, ?_, ?_⟩
    · simp [hself, awardXpChar_xp]
    · simp [hself, awardXpChar_moments]
  · rw [if_neg (show ¬ (false = true) by simp), if_neg h0]
    rw [find?_updateCharacter _ _ _
            (fun c => { c with energy := some (c.energy.getD 100 - 3) })
            (fun c => rfl), hme]
    have hx : xpr = 0 := by omega
    refine ⟨_, rfl, ?_, ?_⟩
    · simp [hself, hx]
    · simp [hself]

theorem find?_talkCharsAfter_me (st : GameState) (me listener : Character)
    (fm : Bool) (xpr : Nat) (hne : listener.id ≠ me.id)
    (hme : st.characters.find? (fun c => c.id == me.id) = some me) :
    ∃ sp, (talkCharsAfter st me listener fm xpr).find?
        (fun c => c.id == me.id) = some sp ∧
      sp.xp = me.xp + xpr := by
  cases fm with
  | true =>
    obtain ⟨sp, h1, h2, _⟩ :=
      find?_talkCharsAfter_me_true st me listener xpr hne hme
    exact ⟨sp, h1, h2⟩
  | false =>
    obtain ⟨sp, h1, h2, _⟩ :=
      find?_talkCharsAfter_me_false st me listener xpr hme
    exact ⟨sp, h1, h2⟩

theorem find?_talkCharsAfter_listener (st : GameState)
    (me listener lRow : Character) (xpr : Nat) (hne : listener.id ≠ me.id)
    (hlr : st.characters.find? (fun c => c.id == listener.id) = some lRow) :
    ∃ ls, (talkCharsAfter st me listener true xpr).find?
        (fun c => c.id == listener.id) = some ls ∧
      ls.moments = momentsAfterPush lRow.moments
        ⟨st.tick, "social", firstMeetingText me.name⟩ := by
  have hlid : lRow.id = listener.id := by
    have := List.find?_some hlr
    exact beq_iff_eq.mp this
  have hlme : (lRow.id == me.id) = false := by
    rw [hlid]; exact beq_eq_false_iff_ne.mpr hne
  have hlself : (lRow.id == listener.id) = true := by
    rw [hlid]; exact beq_self_eq_true listener.id
  unfold talkCharsAfter
  dsimp only
  by_cases h0 : 0 < xpr
  · rw [if_pos rfl, if_pos h0]
    rw [find?_updateCharacter _ _ _ _ (awardXpChar_id xpr),
        find?_updateCharacter _ _ _ _
          (applyMomentChar_id st.tick (firstMeetingText me.name) "social"),
        find?_updateCharacter _ _ _ _
          (applyMomentChar_id st.tick (firstMeetingText listener.name) "social"),
        find?_updateCharacter _ _ _
            (fun c => { c with energy := some (c.energy.getD 100 - 3) })
            (fun c => rfl), hlr]
    refine ⟨_, rfl, ?_⟩
    simp [hlme, hlself, applyMomentChar, addSignificantMoment]
  · rw [if_pos rfl, if_neg h0]
    rw [find?_updateCharacter _ _ _ _
          (applyMomentChar_id st.tick (firstMeetingText me.name) "social"),
        find?_updateCharacter _ _ _ _
          (applyMomentChar_id st.tick (firstMeetingText listener.name) "social"),
        find?_updateCharacter _ _ _
            (fun c => { c with energy := some (c.energy.getD 100 - 3) })
            (fun c => rfl), hlr]
    refine ⟨_, rfl, ?_⟩
    simp [hlme, hlself, applyMomentChar, addSignificantMoment]

/-- **C3**  While `cooldownUntilTick > tick` holds for the ordered pair, the
talk attempt fails with a cooldown error carrying the remaining ticks
`cooldownUntilTick - tick`; once `tick` has reached `cooldownUntilTick` the
attempt is no longer rejected for cooldown, the post-increment exchange
count is stored, and the stored cooldown is `tick + 30` exactly when that
count reached the ceiling of 15, and `0` otherwise. -/
theorem talk_cooldown_spec (st : GameState) (me listener : Character)
    (msg : String) (hmsg : msg ≠ "") (hen : ¬ jsOr100 me.energy < 3)
    (hL : talkListener st me = some listener) :
    (st.tick < cooldownOf (findRel st.relationships me.id listener.id) →
      talkAction st me msg = Except.error (TalkError.conversationCooldown
        (cooldownOf (findRel st.relationships me.id listener.id) - st.tick))) ∧
    (cooldownOf (findRel st.relationships me.id listener.id) ≤ st.tick →
      ∃ st' out, talkAction st me msg = Except.ok (st', out) ∧
        out.newExchangeCount =
          exchangesOf (findRel st.relationships me.id listener.id) + 1 ∧
        out.newCooldown =
          (if 15 ≤ out.newExchangeCount then st.tick + 30 else 0) ∧
        ∃ r, findRel st'.relationships me.id listener.id = some r ∧
          r.recentExchanges = out.newExchangeCount ∧
          r.cooldownUntilTick = out.newCooldown) := by
  constructor
  · intro hcd
    unfold talkAction
    rw [if_neg hmsg, if_neg hen, hL]
    dsimp only
    rw [if_pos hcd]
  · intro hcd
    have hok : talkAction st me msg = Except.ok (talkSuccess st me listener msg
        (exchangesOf (findRel st.relationships me.id listener.id))) := by
      unfold talkAction
      rw [if_neg hmsg, if_neg hen, hL]
      dsimp only
      rw [if_neg (Nat.not_lt.mpr hcd)]
    refine ⟨_, _, hok, rfl, rfl, ?_⟩
    dsimp only
    unfold talkRelsAfter
    cases hrel : findRel st.relationships me.id listener.id with
    | none =>
      dsimp only [Option.isNone]
      rw [if_pos rfl]
      exact ⟨_, findRel_insert st.relationships
        ⟨me.id, listener.id, 5, 1, st.tick, st.tick, 1, 0⟩ hrel,
        by simp [exchangesOf], by simp [exchangesOf, talkNewCooldown]⟩
    | some r0 =>
      dsimp only [Option.isNone]
      rw [if_neg (show ¬ (false = true) by simp)]
      rw [findRel_update st.relationships me.id listener.id
        (fun r => { r with
          interactions := r.interactions + 1,
          sentiment := min 100 (r.sentiment + 1),
          lastInteractionTick := st.tick,
          recentExchanges := exchangesOf (some r0) + 1,
          cooldownUntilTick := talkNewCooldown st.tick (exchangesOf (some r0) + 1) })
        (fun r => ⟨rfl, rfl⟩), hrel]
      exact ⟨_, rfl, rfl, rfl⟩

/-- Closed witness for `talk_cooldown_spec`: with the one candidate two
tiles east and a relationship row in cooldown until tick 40 at tick 10,
the attempt fails with 30 ticks left. -/
theorem talk_cooldown_spec_witness :
    talkAction
      ⟨10, 20, 15,
        [⟨1, "A", 0, 0, 100, 100, 0, 1, some 100, some 100, true, 0, [], []⟩,
         ⟨2, "B", 2, 0, 100, 100, 0, 1, some 100, some 100, true, 0, [], []⟩],
        [], [⟨1, 2, 5, 6, 0, 9, 15, 40⟩], []⟩
      ⟨1, "A", 0, 0, 100, 100, 0, 1, some 100, some 100, true, 0, [], []⟩
      "hi" =
      Except.error (TalkError.conversationCooldown 30) := by
  have h := (talk_cooldown_spec
    ⟨10, 20, 15,
      [⟨1, "A", 0, 0, 100, 100, 0, 1, some 100, some 100, true, 0, [], []⟩,
       ⟨2, "B", 2, 0, 100, 100, 0, 1, some 100, some 100, true, 0, [], []⟩],
      [], [⟨1, 2, 5, 6, 0, 9, 15, 40⟩], []⟩
    ⟨1, "A", 0, 0, 100, 100, 0, 1, some 100, some 100, true, 0, [], []⟩
    ⟨2, "B", 2, 0, 100, 100, 0, 1, some 100, some 100, true, 0, [], []⟩
    "hi" (by decide) (by decide) (by decide)).1 (by decide)
  exact h

/-- **C4**  On every successful talk the XP awarded to the speaker follows
the diminishing schedule keyed on the post-increment exchange count — 5
when the count is at most 5, 2 for counts 6 through 10, 0 beyond 10 — and
a first meeting awards the flat 20 bonus instead; the speaker's stored XP
grows by exactly that reward. -/
theorem talk_xp_schedule (st : GameState) (me : Character) (msg : String)
    (st' : GameState) (out : TalkOutcome)
    (hme : st.characters.find? (fun c => c.id == me.id) = some me)
    (h : talkAction st me msg = Except.ok (st', out)) :
    (out.isFirstMeeting = true → out.xpReward = 20) ∧
    (out.isFirstMeeting = false →
      (out.newExchangeCount ≤ 5 → out.xpReward = 5) ∧
      (6 ≤ out.newExchangeCount → out.newExchangeCount ≤ 10 →
        out.xpReward = 2) ∧
      (10 < out.newExchangeCount → out.xpReward = 0)) ∧
    (∃ sp, st'.characters.find? (fun c => c.id == me.id) = some sp ∧
      sp.xp = me.xp + out.xpReward) := by
  obtain ⟨hmsg, hen, listener, hL, hcd, hp⟩ := talkAction_ok_inv h
  have hst' : st' = (talkSuccess st me listener msg
      (exchangesOf (findRel st.relationships me.id listener.id))).1 := by
    rw [← hp]
  have hout : out = (talkSuccess st me listener msg
      (exchangesOf (findRel st.relationships me.id listener.id))).2 := by
    rw [← hp]
  rw [talkSuccess_outcome] at hout
  have hfmq : out.isFirstMeeting =
      (findRel st.relationships me.id listener.id).isNone := by rw [hout]
  have hcnt : out.newExchangeCount =
      exchangesOf (findRel st.relationships me.id listener.id) + 1 := by
    rw [hout]
  have hxpr : out.xpReward =
      talkXpReward (findRel st.relationships me.id listener.id).isNone
        (exchangesOf (findRel st.relationships me.id listener.id) + 1) := by
    rw [hout]
  refine ⟨?_, ?_, ?_⟩
  · intro hfm
    rw [hfmq] at hfm
    rw [hxpr, talkXpReward, if_pos hfm]
  · intro hfm
    rw [hfmq] at hfm
    refine ⟨?_, ?_, ?_⟩
    · intro h1
      rw [hcnt] at h1
      rw [hxpr, talkXpReward, if_neg (by simp [hfm]), if_pos h1]
    · intro h1 h2
      rw [hcnt] at h1 h2
      rw [hxpr, talkXpReward, if_neg (by simp [hfm]), if_neg (by omega),
        if_pos h2]
    · intro h1
      rw [hcnt] at h1
      rw [hxpr, talkXpReward, if_neg (by simp [hfm]), if_neg (by omega),
        if_neg (by omega)]
  · rw [hst', hxpr]
    obtain ⟨sp, hsp, hxp⟩ := find?_talkCharsAfter_me st me listener
      (findRel st.relationships me.id listener.id).isNone
      (talkXpReward (findRel st.relationships me.id listener.id).isNone
        (exchangesOf (findRel st.relationships me.id listener.id) + 1))
      (talkListener_ne st me listener hL) hme
    rw [talkSuccess_chars]
    exact ⟨sp, hsp, hxp⟩

/-- Example character: speaker at the origin. -/
def exA : Character :=
  ⟨1, "A", 0, 0, 100, 100, 0, 1, some 100, some 100, true, 0, [], []⟩

/-- Example character: active listener one tile east of `exA`. -/
def exB : Character :=
  ⟨2, "B", 1, 0, 100, 100, 0, 1, some 100, some 100, true, 0, [], []⟩

/-- Example character: active, at the `(2, 2)` corner of the talk box
relative to `exA` — inside the Chebyshev box, outside Euclidean radius 2. -/
def exC : Character :=
  ⟨3, "C", 2, 2, 100, 100, 0, 1, some 100, some 100, true, 0, [], []⟩

def exTalkState : GameState := ⟨7, 20, 15, [exA, exB], [], [], []⟩

def exCornerState : GameState := ⟨7, 20, 15, [exA, exC], [], [], []⟩

/-- The pair returned by the successful example talk of `exA` in
`exTalkState`. -/
def exTalkPair : GameState × TalkOutcome :=
  (talkAction exTalkState exA "hello").toOption.getD
    (exTalkState, ⟨0, "", false, 0, 0, 0⟩)

/-- Closed witness for `talk_xp_schedule`: the first-ever talk of `exA`
(to `exB`) awards the flat first-meeting XP of 20, stored on the speaker. -/
theorem talk_xp_schedule_witness :
    exTalkPair.2.isFirstMeeting = true ∧ exTalkPair.2.xpReward = 20 := by
  have h := talk_xp_schedule exTalkState exA "hello" exTalkPair.1 exTalkPair.2
    (by rfl) (by rfl)
  exact ⟨by rfl, h.1 (by rfl)⟩

/-- **C6 counterexample**  The claim says a talk is rejected with
no-target-nearby exactly when no other active actor lies within
*Euclidean* distance 2.  At tick 7, with the speaker `exA` at `(0,0)` and
the only other active character `exC` at `(2,2)`, every other actor is
outside Euclidean radius 2 (squared distance `8 > 2^2 = 4`), yet the talk
is not rejected — it succeeds, because the handler filters on the
Chebyshev box `ABS(dx) <= 2 AND ABS(dy) <= 2`. -/
theorem talk_euclidean_radius_counterexample :
    (∀ c ∈ exCornerState.characters, c.id ≠ exA.id →
      ¬ sqDist exA.x exA.y c.x c.y ≤ 2 ^ 2) ∧
    (talkAction exCornerState exA "hello").isOk = true := by
  constructor
  · decide
  · decide

/-- **C6 (amended)**  A talk submission is rejected with no-target-nearby
exactly when no other active actor lies within the Chebyshev box
`|dx| ≤ 2 ∧ |dy| ≤ 2`; when at least one such actor exists, the chosen
listener is one of them minimizing the (squared) Euclidean distance. -/
theorem talk_nearby_spec (st : GameState) (me : Character) (msg : String)
    (hmsg : msg ≠ "") (hen : ¬ jsOr100 me.energy < 3) :
    (talkAction st me msg = Except.error TalkError.noOneNearby ↔
      talkCandidates st me = []) ∧
    (∀ listener, talkListener st me = some listener →
      listener ∈ talkCandidates st me ∧
      ∀ c ∈ talkCandidates st me,
        sqDist me.x me.y listener.x listener.y ≤ sqDist me.x me.y c.x c.y) := by
  constructor
  · constructor
    · intro h
      unfold talkAction at h
      rw [if_neg hmsg, if_neg hen] at h
      cases hL : talkListener st me with
      | none =>
        unfold talkListener at hL
        cases hc : talkCandidates st me with
        | nil => rfl
        | cons a as =>
          rw [hc] at hL
          exact absurd hL (pickNearest_ne_none me a as)
      | some l =>
        rw [hL] at h
        dsimp only at h
        by_cases h3 : st.tick < cooldownOf (findRel st.relationships me.id l.id)
        · rw [if_pos h3] at h; exact absurd h (by simp)
        · rw [if_neg h3] at h; exact absurd h (by simp)
    · intro h
      unfold talkAction
      rw [if_neg hmsg, if_neg hen]
      have hL : talkListener st me = none := by
        unfold talkListener; rw [h]; rfl
      rw [hL]
  · intro listener hL
    exact ⟨pickNearest_mem me _ _ hL, pickNearest_min me _ _ hL⟩

/-- Closed witness for `talk_nearby_spec`. -/
theorem talk_nearby_spec_witness :
    talkAction exTalkState exA "hello" = Except.error TalkError.noOneNearby ↔
      talkCandidates exTalkState exA = [] :=
  (talk_nearby_spec exTalkState exA "hello" (by decide) (by decide)).1

theorem findRel_map_pres (rels : List Relationship) (a b : Nat)
    (f : Relationship → Relationship)
    (hf : ∀ r, (f r).char1 = r.char1 ∧ (f r).char2 = r.char2) :
    findRel (rels.map f) a b = Option.map f (findRel rels a b) := by
  unfold findRel
  induction rels with
  | nil => rfl
  | cons r rs ih =>
    rw [List.map_cons]
    by_cases hp : (r.char1 == a && r.char2 == b) = true
    · have hfp : ((f r).char1 == a && (f r).char2 == b) = true := by
        rw [show (f r).char1 = r.char1 from (hf r).1,
            show (f r).char2 = r.char2 from (hf r).2]
        exact hp
      rw [List.find?_cons_of_pos (p := fun (r : Relationship) =>
            r.char1 == a && r.char2 == b) _ hfp,
          List.find?_cons_of_pos (p := fun (r : Relationship) =>
            r.char1 == a && r.char2 == b) _ hp]
      rfl
    · have hfp : ¬ ((f r).char1 == a && (f r).char2 == b) = true := by
        rw [show (f r).char1 = r.char1 from (hf r).1,
            show (f r).char2 = r.char2 from (hf r).2]
        exact hp
      rw [List.find?_cons_of_neg (p := fun (r : Relationship) =>
            r.char1 == a && r.char2 == b) _ hfp,
          List.find?_cons_of_neg (p := fun (r : Relationship) =>
            r.char1 == a && r.char2 == b) _ hp]
      exact ih

theorem talkRelsAfter_keys_pres (st : GameState) (me listener : Character)
    (cnt cd : Nat) :
    ∀ r : Relationship,
      ((if (r.char1 == me.id && r.char2 == listener.id) = true then
        { r with
          interactions := r.interactions + 1,
          sentiment := min 100 (r.sentiment + 1),
          lastInteractionTick := st.tick,
          recentExchanges := cnt,
          cooldownUntilTick := cd } else r) : Relationship).char1 = r.char1 ∧
      ((if (r.char1 == me.id && r.char2 == listener.id) = true then
        { r with
          interactions := r.interactions + 1,
          sentiment := min 100 (r.sentiment + 1),
          lastInteractionTick := st.tick,
          recentExchanges := cnt,
          cooldownUntilTick := cd } else r) : Relationship).char2 = r.char2 := by
  intro r
  by_cases hc : (r.char1 == me.id && r.char2 == listener.id) = true
  · rw [if_pos hc]; exact ⟨rfl, rfl⟩
  · rw [if_neg hc]; exact ⟨rfl, rfl⟩

theorem findRel_talkRelsAfter_ab (st : GameState) (me listener : Character)
    (cnt cd : Nat) :
    findRel (talkRelsAfter st me listener
      (findRel st.relationships me.id listener.id).isNone cnt cd)
      me.id listener.id ≠ none := by
  unfold talkRelsAfter
  cases hrel : findRel st.relationships me.id listener.id with
  | none =>
    dsimp only [Option.isNone]
    rw [if_pos rfl]
    rw [findRel_insert st.relationships
      ⟨me.id, listener.id, 5, 1, st.tick, st.tick, 1, 0⟩ hrel]
    simp
  | some r0 =>
    dsimp only [Option.isNone]
    rw [if_neg (show ¬ (false = true) by simp)]
    rw [findRel_map_pres st.relationships me.id listener.id _
      (talkRelsAfter_keys_pres st me listener cnt cd), hrel]
    simp

theorem findRel_talkRelsAfter_pres (st : GameState) (me listener : Character)
    (fm : Bool) (cnt cd : Nat) (a b : Nat)
    (h : findRel st.relationships a b ≠ none) :
    findRel (talkRelsAfter st me listener fm cnt cd) a b ≠ none := by
  unfold talkRelsAfter
  cases fm with
  | true =>
    rw [if_pos rfl]
    cases hprev : findRel st.relationships a b with
    | none => exact absurd hprev h
    | some r =>
      have h2 : findRel (st.relationships ++
          [⟨me.id, listener.id, 5, 1, st.tick, st.tick, 1, 0⟩]) a b = some r :=
        findAppendSome _ _ _ _ hprev
      rw [h2]
      simp
  | false =>
    rw [if_neg (show ¬ (false = true) by simp)]
    rw [findRel_map_pres st.relationships a b _
      (talkRelsAfter_keys_pres st me listener cnt cd)]
    cases hprev : findRel st.relationships a b with
    | none => exact absurd hprev h
    | some r => simp

theorem findRel_talkRelsAfter_none_iff (st : GameState)
    (me listener : Character) (fm : Bool) (cnt cd : Nat) (a b : Nat)
    (hno : ¬ (me.id = a ∧ listener.id = b)) :
    findRel (talkRelsAfter st me listener fm cnt cd) a b = none ↔
      findRel st.relationships a b = none := by
  unfold talkRelsAfter
  cases fm with
  | true =>
    rw [if_pos rfl]
    rw [findRel_append_other st.relationships
      ⟨me.id, listener.id, 5, 1, st.tick, st.tick, 1, 0⟩ a b hno]
  | false =>
    rw [if_neg (show ¬ (false = true) by simp)]
    rw [findRel_map_pres st.relationships a b _
      (talkRelsAfter_keys_pres st me listener cnt cd)]
    cases findRel st.relationships a b <;> simp

theorem talkStep_none_rels (st : GameState) (sub : TalkSubmission)
    (h : (talkStep st sub).2 = none) :
    (talkStep st sub).1.relationships = st.relationships := by
  unfold talkStep at h ⊢
  dsimp only at h ⊢
  cases hfind : st.characters.find? (fun c => c.id == sub.speakerId) with
  | none => rfl
  | some me =>
    dsimp only
    cases hact : talkAction { st with tick := sub.tick } me sub.message with
    | error e => rfl
    | ok p => simp [hfind, hact] at h

theorem talkStep_some_facts (st : GameState) (sub : TalkSubmission)
    (o : TalkOutcome) (h : (talkStep st sub).2 = some o) :
    o.isFirstMeeting =
      (findRel st.relationships sub.speakerId o.listenerId).isNone ∧
    findRel (talkStep st sub).1.relationships sub.speakerId o.listenerId ≠
      none ∧
    (∀ a b : Nat, ¬ (sub.speakerId = a ∧ o.listenerId = b) →
      (findRel (talkStep st sub).1.relationships a b = none ↔
        findRel st.relationships a b = none)) := by
  unfold talkStep at h ⊢
  dsimp only at h ⊢
  cases hfind : st.characters.find? (fun c => c.id == sub.speakerId) with
  | none => simp [hfind] at h
  | some me =>
    dsimp only
    cases hact : talkAction { st with tick := sub.tick } me sub.message with
    | error e => simp [hfind, hact] at h
    | ok p =>
      simp only [hfind, hact] at h
      have h : p.2 = o := by simpa using h
      obtain ⟨hmsg, hen, listener, hL, hcd, hp⟩ := talkAction_ok_inv hact
      have hid : me.id = sub.speakerId := by
        have := List.find?_some (p := fun (c : Character) =>
          c.id == sub.speakerId) hfind
        exact beq_iff_eq.mp this
      have ho : o = (talkSuccess { st with tick := sub.tick } me listener
          sub.message (exchangesOf (findRel st.relationships me.id
            listener.id))).2 := by
        rw [← h, hp]
      have hrels : p.1.relationships =
          talkRelsAfter { st with tick := sub.tick } me listener
            (findRel st.relationships me.id listener.id).isNone
            (exchangesOf (findRel st.relationships me.id listener.id) + 1)
            (talkNewCooldown sub.tick
              (exchangesOf (findRel st.relationships me.id listener.id) + 1)) := by
        rw [hp]; rfl
      have hlid : o.listenerId = listener.id := by rw [ho]; rfl
      have hfm : o.isFirstMeeting =
          (findRel st.relationships me.id listener.id).isNone := by
        rw [ho]; rfl
      refine ⟨?_, ?_, ?_⟩
      · rw [hfm, hlid, ← hid]
      · rw [hrels, hlid, ← hid]
        exact findRel_talkRelsAfter_ab { st with tick := sub.tick } me listener
          _ _
      · intro a b hno
        rw [hrels]
        exact findRel_talkRelsAfter_none_iff _ me listener _ _ _ a b
          (by rw [hid, ← hlid]; exact hno)

theorem runTalks_count (subs : List TalkSubmission) :
    ∀ (st : GameState) (a b : Nat),
      (findRel st.relationships a b ≠ none →
        (runTalks st subs).2.countP (isFirstMeetingAB a b) = 0) ∧
      (findRel st.relationships a b = none →
        (runTalks st subs).2.countP (isFirstMeetingAB a b) =
          min 1 ((runTalks st subs).2.countP (isTalkAB a b))) := by
  induction subs with
  | nil =>
    intro st a b
    exact ⟨fun _ => rfl, fun _ => rfl⟩
  | cons sub rest ih =>
    intro st a b
    rcases hstep : talkStep st sub with ⟨st1, o2⟩
    cases o2 with
    | none =>
      have hrun : runTalks st (sub :: rest) = runTalks st1 rest := by
        simp only [runTalks]
        rw [hstep]
      have hrels : st1.relationships = st.relationships := by
        have h2 := talkStep_none_rels st sub (by rw [hstep])
        rw [hstep] at h2
        exact h2
      rw [hrun]
      constructor
      · intro h
        exact (ih st1 a b).1 (by rw [hrels]; exact h)
      · intro h
        exact (ih st1 a b).2 (by rw [hrels]; exact h)
    | some o =>
      have hrun : runTalks st (sub :: rest) =
          ((runTalks st1 rest).1,
            (sub.speakerId, o) :: (runTalks st1 rest).2) := by
        simp only [runTalks]
        rw [hstep]
      obtain ⟨hfm, hab, hoth⟩ := talkStep_some_facts st sub o (by rw [hstep])
      rw [hstep] at hab hoth
      dsimp only at hab hoth
      rw [hrun]
      dsimp only
      by_cases hq : sub.speakerId = a ∧ o.listenerId = b
      · obtain ⟨hqa, hqb⟩ := hq
        rw [hqa, hqb] at hfm hab
        have hTalk : isTalkAB a b (sub.speakerId, o) = true := by
          simp [isTalkAB, hqa, hqb]

        constructor
        · intro h
          cases hrel : findRel st.relationships a b with
          | none => exact absurd hrel h
          | some r =>
            rw [hrel] at hfm
            have hFirst : isFirstMeetingAB a b (sub.speakerId, o) = false := by
              unfold isFirstMeetingAB
              rw [hfm]
              simp
            rw [List.countP_cons, if_neg (by rw [hFirst]; simp)]
            rw [(ih st1 a b).1 hab]
        · intro h
          rw [h] at hfm
          have hFirst : isFirstMeetingAB a b (sub.speakerId, o) = true := by
            unfold isFirstMeetingAB
            rw [hfm, hTalk]
            rfl
          rw [List.countP_cons, if_pos (by rw [hFirst]),
            List.countP_cons, if_pos (by rw [hTalk]),
            (ih st1 a b).1 hab]
          omega
      · have hTalkF : ¬ isTalkAB a b (sub.speakerId, o) = true := by
          simp only [isTalkAB, Bool.and_eq_true, beq_iff_eq]
          exact hq
        have hFirstF : ¬ isFirstMeetingAB a b (sub.speakerId, o) = true := by
          simp only [isFirstMeetingAB, Bool.and_eq_true]
          intro hcon
          exact hTalkF hcon.1
        rw [List.countP_cons, if_neg hFirstF, List.countP_cons, if_neg hTalkF]
        constructor
        · intro h
          rw [(ih st1 a b).1 (fun hnone => h ((hoth a b hq).mp hnone))]
        · intro h
          rw [(ih st1 a b).2 ((hoth a b hq).mpr h)]
          omega

/-- **C5**  Over any history of talk submissions starting from a state with
no `(A,B)` relationship row, the number of successful `A → B` talks flagged
as a first meeting is `min 1 (number of successful A → B talks)` — the
first-meeting bonus fires exactly once per direction of the ordered pair;
and the one first-meeting talk appends exactly one "first meeting"
significant moment to the speaker's sequence and exactly one to the
listener's, and awards the flat bonus of 20 XP. -/
theorem talk_first_meeting_unique :
    (∀ (st : GameState) (subs : List TalkSubmission) (a b : Nat),
      findRel st.relationships a b = none →
      (runTalks st subs).2.countP (isFirstMeetingAB a b) =
        min 1 ((runTalks st subs).2.countP (isTalkAB a b))) ∧
    (∀ (st : GameState) (me listener lRow : Character) (msg : String)
        (st' : GameState) (out : TalkOutcome),
      st.characters.find? (fun c => c.id == me.id) = some me →
      talkListener st me = some listener →
      st.characters.find? (fun c => c.id == listener.id) = some lRow →
      findRel st.relationships me.id listener.id = none →
      talkAction st me msg = Except.ok (st', out) →
      out.isFirstMeeting = true ∧ out.xpReward = 20 ∧
      (∃ sp, st'.characters.find? (fun c => c.id == me.id) = some sp ∧
        sp.moments = momentsAfterPush me.moments
          ⟨st.tick, "social", firstMeetingText listener.name⟩) ∧
      (∃ ls, st'.characters.find? (fun c => c.id == listener.id) = some ls ∧
        ls.moments = momentsAfterPush lRow.moments
          ⟨st.tick, "social", firstMeetingText me.name⟩)) := by
  constructor
  · intro st subs a b h
    exact (runTalks_count subs st a b).2 h
  · intro st me listener lRow msg st' out hme hL hlr hrelnone h
    obtain ⟨hmsg, hen, listener', hL', hcd, hp⟩ := talkAction_ok_inv h
    have hleq : listener' = listener := by
      rw [hL] at hL'
      exact (Option.some.inj hL').symm
    rw [hleq] at hp
    have hout : out = (talkSuccess st me listener msg
        (exchangesOf (findRel st.relationships me.id listener.id))).2 :=
      congrArg Prod.snd hp
    have hst' : st' = (talkSuccess st me listener msg
        (exchangesOf (findRel st.relationships me.id listener.id))).1 :=
      congrArg Prod.fst hp
    have hne := talkListener_ne st me listener hL
    have hXP : talkXpReward (findRel st.relationships me.id listener.id).isNone
        (exchangesOf (findRel st.relationships me.id listener.id) + 1) = 20 := by
      rw [hrelnone]; rfl
    have hX : (findRel st.relationships me.id listener.id).isNone = true := by
      rw [hrelnone]; rfl
    refine ⟨?_, ?_, ?_, ?_⟩
    · rw [hout, talkSuccess_outcome, hrelnone]
      rfl
    · rw [hout, talkSuccess_outcome, hrelnone]
      rfl
    · rw [hst', talkSuccess_chars, hXP, hX]
      obtain ⟨sp, h1, _, hm⟩ :=
        find?_talkCharsAfter_me_true st me listener 20 hne hme
      exact ⟨sp, h1, hm⟩
    · rw [hst', talkSuccess_chars, hXP, hX]
      obtain ⟨ls, h1, hm⟩ :=
        find?_talkCharsAfter_listener st me listener lRow 20 hne hlr
      exact ⟨ls, h1, hm⟩

/-- Closed witness for `talk_first_meeting_unique`: a single submission
from the example state with no relationship rows. -/
theorem talk_first_meeting_unique_witness :
    (runTalks exTalkState [⟨7, 1, "hello"⟩]).2.countP (isFirstMeetingAB 1 2) =
      min 1 ((runTalks exTalkState [⟨7, 1, "hello"⟩]).2.countP
        (isTalkAB 1 2)) :=
  talk_first_meeting_unique.1 exTalkState [⟨7, 1, "hello"⟩] 1 2 (by decide)

/-! ## World-clock energy regeneration (richer variant)

Inside `worldTick`: `if (tick % 10 === 0)` run
`UPDATE characters SET energy = LEAST(COALESCE(max_energy, 100),
COALESCE(energy, 100) + 5) WHERE last_action_tick < $1 - 20` with `$1` the
just-incremented tick. -/

def worldTickRegen (tick : Nat) (chars : List Character) : List Character :=
  if tick % 10 = 0 then
    chars.map (fun c =>
      if c.lastActionTick < (tick : Int) - 20 then
        { c with
          energy := some (min (c.maxEnergy.getD 100) (c.energy.getD 100 + 5)) }
      else c)
  else chars

/-- Example character idle since tick 0 with energy 10. -/
def exIdle : Character :=
  ⟨4, "D", 0, 0, 100, 100, 0, 1, some 10, some 100, true, 0, [], []⟩

/-- **C8 counterexample**  The claim says regeneration reaches exactly the
actors with `currentTick - lastActionTick >= 20`.  At tick 20 (divisible
by 10) the actor `exIdle` has been idle for exactly 20 ticks, so the claim
demands its energy become `min maxEnergy (energy + 5) = 15`; but the SQL
filter `last_action_tick < tick - 20` requires strictly more than 20 idle
ticks, so the tick leaves the character — and its energy of 10 —
unchanged. -/
theorem worldTick_regen_counterexample :
    20 % 10 = 0 ∧ (20 : Int) - exIdle.lastActionTick ≥ 20 ∧
    worldTickRegen 20 [exIdle] = [exIdle] ∧
    exIdle.energy ≠ some (min (exIdle.maxEnergy.getD 100)
      (exIdle.energy.getD 100 + 5)) := by
  refine ⟨by decide, by decide, by decide, by decide⟩

/-- **C8 (amended)**  On ticks divisible by 10 the regeneration step adds 5
energy, capped at `maxEnergy` (both columns defaulted to 100 when null), to
exactly those actors idle *strictly more* than 20 ticks
(`lastActionTick < tick - 20`), and leaves every other actor — and every
actor on other ticks — unchanged. -/
theorem worldTick_regen_spec (tick : Nat) (chars : List Character) :
    (worldTickRegen tick chars).length = chars.length ∧
    ∀ (i : Nat) (hi : i < chars.length)
      (hi2 : i < (worldTickRegen tick chars).length),
      ((tick % 10 = 0 ∧
          (chars.get ⟨i, hi⟩).lastActionTick < (tick : Int) - 20) →
        (worldTickRegen tick chars).get ⟨i, hi2⟩ =
          { chars.get ⟨i, hi⟩ with
            energy := some (min ((chars.get ⟨i, hi⟩).maxEnergy.getD 100)
              ((chars.get ⟨i, hi⟩).energy.getD 100 + 5)) }) ∧
      (¬ (tick % 10 = 0 ∧
          (chars.get ⟨i, hi⟩).lastActionTick < (tick : Int) - 20) →
        (worldTickRegen tick chars).get ⟨i, hi2⟩ = chars.get ⟨i, hi⟩) := by
  unfold worldTickRegen
  by_cases h10 : tick % 10 = 0
  · rw [if_pos h10]
    refine ⟨List.length_map _ _, ?_⟩
    intro i hi hi2
    constructor
    · rintro ⟨-, hidle⟩
      rw [List.get_map]
      rw [if_pos hidle]
    · intro hno
      rw [List.get_map]
      by_cases hidle : (chars.get ⟨i, hi⟩).lastActionTick < (tick : Int) - 20
      · exact absurd ⟨h10, hidle⟩ hno
      · rw [if_neg hidle]
  · rw [if_neg h10]
    refine ⟨rfl, ?_⟩
    intro i hi hi2
    constructor
    · rintro ⟨h1, -⟩
      exact absurd h1 h10
    · intro _
      rfl

/-- Closed witness for `worldTick_regen_spec`: at tick 30 the character
idle since tick 0 (29 > 20 idle ticks... 30 - 0 > 20) is regenerated to 15. -/
theorem worldTick_regen_spec_witness :
    (worldTickRegen 30 [exIdle]).get ⟨0, by decide⟩ =
      { exIdle with energy := some (min 100 (10 + 5)) } := by
  have h := ((worldTick_regen_spec 30 [exIdle]).2 0 (by decide)
    (by decide)).1 ⟨by decide, by decide⟩
  exact h

/-! ## The examine action, in both server variants

Both `case 'examine'` handlers run the same query —
`SELECT * FROM objects WHERE (LOWER(name) LIKE $1 OR LOWER(id) LIKE $1)
AND ABS(x - $2) <= 3 AND ABS(y - $3) <= 3 LIMIT 1` with `$1 =
'%' + target.toLowerCase() + '%'` — then return the object's description
and append one activity-log entry.  Neither handler calls `awardXp`. -/

/-- Whether the first list is an initial segment of the second. -/
def charsPre : List Char → List Char → Bool
  | [], _ => true
  | _ :: _, [] => false
  | a :: as, b :: bs => a == b && charsPre as bs

/-- Whether the first list occurs contiguously inside the second:
`LIKE '%needle%'`. -/
def charsSub (needle : List Char) : List Char → Bool
  | [] => charsPre needle []
  | b :: bs => charsPre needle (b :: bs) || charsSub needle bs

/-- `LOWER(col) LIKE '%' + target.toLowerCase() + '%'`. -/
def lowerChars (l : List Char) : List Char := l.map Char.toLower

def likeContains (col target : String) : Bool :=
  charsSub (lowerChars target.data) (lowerChars col.data)

/-- The examine object query. -/
def examineFind (objects : List WorldObject) (target : String)
    (x y : Int) : Option WorldObject :=
  objects.find? (fun o =>
    (likeContains o.name target || likeContains o.id target) &&
    decide ((o.x - x).natAbs ≤ 3) && decide ((o.y - y).natAbs ≤ 3))

inductive ExamineError
  | notSeen (target : String)
deriving Repr, DecidableEq

/-- `case 'examine'` of the richer server variant. -/
def examineActionRich (st : GameState) (me : Character) (target : String) :
    Except ExamineError (GameState × WorldObject) :=
  match examineFind st.objects target me.x me.y with
  | none => Except.error (ExamineError.notSeen target)
  | some o =>
    Except.ok ({ st with activityLog := st.activityLog ++
      [me.name ++ " examines the " ++ o.name] }, o)

/-- `case 'examine'` of the simpler server variant — textually the same
handler body as the richer variant's. -/
def examineActionSimple (st : GameState) (me : Character) (target : String) :
    Except ExamineError (GameState × WorldObject) :=
  match examineFind st.objects target me.x me.y with
  | none => Except.error (ExamineError.notSeen target)
  | some o =>
    Except.ok ({ st with activityLog := st.activityLog ++
      [me.name ++ " examines the " ++ o.name] }, o)

/-- Example object two tiles away from `exA`. -/
def exPine : WorldObject :=
  ⟨"tree1", "Old Pine", 2, 1, "A towering pine tree with thick bark.",
   true, "You shake the tree. A pinecone falls.", false⟩

def exExamineState : GameState := ⟨5, 20, 15, [exA], [exPine], [], []⟩

/-- The pair returned by the successful example examine. -/
def exExaminePair : GameState × WorldObject :=
  (examineActionSimple exExamineState exA "pine").toOption.getD
    (exExamineState, exPine)

/-- **C9 counterexample**  The claim says the simpler variant awards a
small XP amount on a successful examine.  In the concrete state
`exExamineState` the examine succeeds, yet the character table — including
the speaker's XP — is returned unchanged: the simpler variant awards no XP
either (its handler never calls `awardXp`; `XP_REWARDS.examine = 2` exists
in both files but is never used). -/
theorem examine_simple_no_xp_counterexample :
    examineActionSimple exExamineState exA "pine" = Except.ok exExaminePair ∧
    exExaminePair.1.characters = exExamineState.characters ∧
    exExaminePair.2.description = exPine.description := by
  refine ⟨rfl, rfl, rfl⟩

/-- **C9 (amended)**  The two variants' examine handlers are the same
function: in both, a successful examine awards no XP and mutates nothing
beyond appending one activity-log entry (the turn-gate stamp falls outside
the handler), returning an object of the world — hence its descriptive
text. -/
theorem examine_variants_agree (st : GameState) (me : Character)
    (target : String) :
    examineActionRich st me target = examineActionSimple st me target ∧
    (∀ (st' : GameState) (o : WorldObject),
      examineActionRich st me target = Except.ok (st', o) →
      st'.characters = st.characters ∧
      st'.relationships = st.relationships ∧
      st'.tick = st.tick ∧ st'.objects = st.objects ∧
      st'.width = st.width ∧ st'.height = st.height ∧
      st'.activityLog = st.activityLog ++
        [me.name ++ " examines the " ++ o.name] ∧
      o ∈ st.objects) := by
  refine ⟨rfl, ?_⟩
  intro st' o h
  unfold examineActionRich at h
  cases hfind : examineFind st.objects target me.x me.y with
  | none => rw [hfind] at h; exact absurd h (by simp)
  | some o2 =>
    rw [hfind] at h
    dsimp only at h
    have h2 := Except.ok.inj h
    have ho : o2 = o := congrArg Prod.snd h2
    have hst : st' = { st with activityLog := st.activityLog ++
        [me.name ++ " examines the " ++ o2.name] } :=
      (congrArg Prod.fst h2).symm
    subst ho
    subst hst
    refine ⟨rfl, rfl, rfl, rfl, rfl, rfl, rfl, ?_⟩
    exact List.mem_of_find?_eq_some hfind

/-- Closed witness for `examine_variants_agree`. -/
theorem examine_variants_agree_witness :
    exExaminePair.1.characters = exExamineState.characters :=
  ((examine_variants_agree exExamineState exA "pine").2 exExaminePair.1
    exExaminePair.2 (by rfl)).1

end LlmRpg
